import Mathlib

/-!
Verification of the Summit Logic order-reconciliation engine
(`data_cleaner.py`, `logistics_engine.py`).

Strings are modelled as Lean `String`s (lists of Unicode code points);
spreadsheets are modelled as grids `List (List String)` of cell texts
(pandas reads every cell with `dtype=str` and `fillna("")`, openpyxl cell
values are stringified with `str(... or "")`, so the cell text is the
value both readers observe).  Python dicts are modelled as association
lists with insertion-order semantics (`dictInsert` updates in place,
appends fresh keys), matching `dict.items()` iteration order.  Python
`ValueError` is modelled by the `EngineError.valueError` constructor of
an explicit error type carried in `Except`.
-/

namespace SummitLogic

/-! ### data_cleaner.py -/

/-- Character ranges of the precompiled `_EMOJI_RE` class:
misc symbols and emoticons, dingbats, zero-width characters, and
variation selectors.  `_EMOJI_RE.sub("", text)` deletes exactly the
characters satisfying this predicate. -/
def isEmojiLike (c : Char) : Bool :=
  (0x1F000 ≤ c.toNat && c.toNat ≤ 0x1FFFF) ||
  (0x2600 ≤ c.toNat && c.toNat ≤ 0x27BF) ||
  (0x200B ≤ c.toNat && c.toNat ≤ 0x200F) ||
  (0xFE00 ≤ c.toNat && c.toNat ≤ 0xFE0F)

/-- The class `[\x00-\x1f\x7f]` of ASCII control characters replaced by a
space in `clean_text`. -/
def isAsciiControl (c : Char) : Bool :=
  c.toNat ≤ 0x1F || c.toNat == 0x7F

/-- The ASCII whitespace characters removed at the ends by Python's
`str.strip()` (and pandas `.str.strip()`).  Exotic Unicode spaces,
which `strip()` would also remove, do not occur in the engine's data
and are not modelled. -/
def isPyWhitespace (c : Char) : Bool :=
  c = ' ' || c = '\t' || c = '\n' || c = '\r' || c = '\x0b' || c = '\x0c'

/-- Drop the characters satisfying `p` from both ends of a list. -/
def trimBy (p : Char → Bool) (l : List Char) : List Char :=
  ((l.dropWhile p).reverse.dropWhile p).reverse

/-- Python `s.strip()` / pandas `.str.strip()`. -/
def pyStrip (s : String) : String :=
  String.mk (trimBy isPyWhitespace s.data)

/-- Python `re.sub(r" {2,}", " ", ...)`: every maximal run of two or more
spaces is replaced by a single space (a lone space is left alone, which
is the same as dropping a space whenever the next character is also a
space, as done here). -/
def collapseSpaces : List Char → List Char
  | [] => []
  | [c] => [c]
  | c1 :: c2 :: rest =>
    if c1 = ' ' ∧ c2 = ' ' then collapseSpaces (c2 :: rest)
    else c1 :: collapseSpaces (c2 :: rest)

/-- Python `clean_text`: delete the `_EMOJI_RE` characters, replace ASCII
control characters by a space, collapse runs of spaces, `strip()`. -/
def cleanText (s : String) : String :=
  String.mk (trimBy isPyWhitespace (collapseSpaces
    ((s.data.filter (fun c => !isEmojiLike c)).map
      (fun c => if isAsciiControl c then ' ' else c))))

/-- Python `clean_phone`: `re.sub(r"[^0-9]", "", ...)` keeps exactly the ASCII
digits, in order. -/
def cleanPhone (phone : String) : String :=
  String.mk (phone.data.filter Char.isDigit)

/-- The constant `ADDRESS_MAX_LEN = 100`, the CJ LOIS address length limit. -/
def ADDRESS_MAX_LEN : Nat := 100

/-- Python `truncate_address`: `address[:max_len] if len(address) > max_len else
address` (Python slicing and `len` count code points, as does the list
of characters here). -/
def truncateAddress (address : String) (maxLen : Nat) : String :=
  if address.data.length > maxLen then String.mk (address.data.take maxLen)
  else address

/-! ### logistics_engine.py — constants and error type -/

/-- Python `ValueError`, the error raised by the engine's validation
code.  The application layer catches it separately from generic
exceptions and shows its message to the user as a file-format error,
realizing the spec's `FormatError` class.  `indexError` is the pandas
`IndexError` ("single positional indexer is out-of-bounds") raised by
`df.iloc[:, i]` when `i` is not below the frame's column count; the
match path of `match_and_fill_waybill` has no width guard, so on a
narrow order file this generic exception escapes instead of a
`ValueError`. -/
inductive EngineError where
  | valueError (msg : String)
  | indexError
deriving DecidableEq, Repr

/-- The `NAVER` column-index dictionary: 0-based positions of the roles
in a 스마트스토어 (Smartstore) order export, keyed by the Korean logical
names used in the source. -/
def NAVER : String → Nat
  | "상품주문번호" => 0
  | "택배사" => 7
  | "송장번호" => 8
  | "수취인명" => 13
  | "상품명" => 20
  | "수량" => 26
  | "수취인연락처1" => 48
  | "합배송지" => 50
  | "우편번호" => 54
  | "배송메세지" => 55
  | _ => 0

/-- The keyword list `_CJ_ORDER_KEYWORDS`: priority-ordered keywords for the carrier
file's order-number column. -/
def CJ_ORDER_KEYWORDS : List String :=
  ["고객주문번호", "주문번호", "고객주문", "주문",
   "order number", "order no", "orderno", "order"]

/-- The keyword list `_CJ_WAYBILL_KEYWORDS`: priority-ordered keywords for the carrier
file's tracking-number column. -/
def CJ_WAYBILL_KEYWORDS : List String :=
  ["운송장번호", "송장번호", "운송장", "invoice", "송장", "운송",
   "waybill", "tracking number", "tracking no", "tracking"]

/-- The keyword list `_SMART_ORDER_KEYWORDS`. -/
def SMART_ORDER_KEYWORDS : List String :=
  ["상품주문번호", "주문번호", "상품주문"]

/-! ### find_column -/

/-- Python's `str.lower()` (the engine's keywords are ASCII/Korean, for
which `Char.toLower` agrees with Python's case folding). -/
def strLower (s : String) : String :=
  String.mk (s.data.map Char.toLower)

/-- Helper for `pyIn`: does `hay` contain `needle` as a contiguous
sublist starting at some position? -/
def containsAt (needle : List Char) : List Char → Bool
  | [] => needle.isEmpty
  | c :: rest => needle.isPrefixOf (c :: rest) || containsAt needle rest

/-- Python's substring test `needle in hay` (contiguous substring). -/
def pyIn (needle hay : String) : Bool :=
  containsAt needle.data hay.data

/-- Phase-1 test of `find_column`: `col.strip() == kw`. -/
def exactMatch (col kw : String) : Bool :=
  pyStrip col == kw

/-- Phase-2 test of `find_column`: `kw.lower() in col.strip().lower()`. -/
def fuzzyMatch (col kw : String) : Bool :=
  pyIn (strLower kw) (strLower (pyStrip col))

/-- One phase of `find_column`: the nested loops
`for kw in keywords: for col in cols: if p col kw: return col`. -/
def findFirstBy (cols : List String) (p : String → String → Bool) :
    List String → Option String
  | [] => none
  | kw :: rest =>
    match cols.find? (fun col => p col kw) with
    | some col => some col
    | none => findFirstBy cols p rest

/-- The `ValueError` message of `find_column` (the f-string renders the
two lists; the embedding renders them with `toString`). -/
def findColumnErrMsg (fieldName : String) (keywords cols : List String) : String :=
  "파일 양식이 잘못되었습니다. '" ++ fieldName ++
  "' 컬럼을 찾을 수 없습니다.\n탐색 키워드: " ++ toString keywords ++
  "\n실제 컬럼 목록: " ++ toString cols

/-- Specification predicate for one `find_column` phase: `c` is the hit
the nested loops stop at — there is a keyword index `i` such that no
earlier keyword matches any column, and `c` is the first column (in
column order) matching keyword `i`. -/
abbrev IsFirstHit (p : String → String → Bool) (cols kws : List String)
    (c : String) : Prop :=
  ∃ i, i < kws.length ∧
    (∀ i', i' < i → ∀ col ∈ cols, p col (kws.getD i' "") = false) ∧
    ∃ j, j < cols.length ∧ cols.getD j "" = c ∧ p c (kws.getD i "") = true ∧
      ∀ j', j' < j → p (cols.getD j' "") (kws.getD i "") = false

/-- Specification predicate: no column matches any keyword under `p`. -/
abbrev NoHit (p : String → String → Bool) (cols kws : List String) : Prop :=
  ∀ kw ∈ kws, ∀ col ∈ cols, p col kw = false

/-- Python `find_column(df, keywords, field_name)` over the column-name list
`cols = [str(c) for c in df.columns]`: exact phase, then
case-insensitive containment phase, then `ValueError`. -/
def findColumn (cols keywords : List String) (fieldName : String) :
    Except EngineError String :=
  match findFirstBy cols exactMatch keywords with
  | some col => Except.ok col
  | none =>
    match findFirstBy cols fuzzyMatch keywords with
    | some col => Except.ok col
    | none => Except.error (.valueError (findColumnErrMsg fieldName keywords cols))

/-- Python `map_cj_columns`: resolve the carrier file's order and waybill
columns (returns the pair of actual column names). -/
def mapCjColumns (cols : List String) : Except EngineError (String × String) :=
  match findColumn cols CJ_ORDER_KEYWORDS "고객주문번호 (주문 키)" with
  | Except.error e => Except.error e
  | Except.ok orderCol =>
    match findColumn cols CJ_WAYBILL_KEYWORDS "운송장번호 (송장 번호)" with
    | Except.error e => Except.error e
    | Except.ok waybillCol => Except.ok (orderCol, waybillCol)

/-! ### find_header_row / read_naver_excel -/

/-- The sentinel header label. -/
def SENTINEL : String := "상품주문번호"

/-- The test `(row.astype(str).str.strip() == "상품주문번호").any()`: does some
cell of the row trim to exactly the sentinel? -/
def hitRow (row : List String) : Bool :=
  row.any (fun cell => pyStrip cell == SENTINEL)

/-- The `ValueError` message of `find_header_row`. -/
def headerNotFoundMsg : String :=
  "'상품주문번호' 컬럼을 찾을 수 없습니다.\n" ++
  "네이버 스마트스토어에서 다운로드한 원본 엑셀 파일인지 확인해 주세요."

/-- Python `find_header_row`: scan the grid top to bottom and return the
0-based index of the first row with an exact (trimmed) sentinel cell;
`ValueError` when no row matches. -/
def findHeaderRow (grid : List (List String)) : Except EngineError Nat :=
  match grid.findIdx? hitRow with
  | some idx => Except.ok idx
  | none => Except.error (.valueError headerNotFoundMsg)

/-- The post-filter of `read_naver_excel`: keep a data row iff its
column-0 value is, after trimming, neither empty nor the sentinel
itself. -/
def keepRow (row : List String) : Bool :=
  pyStrip (row.headD "") != "" && pyStrip (row.headD "") != SENTINEL

/-- Python `read_naver_excel`: locate the header row, take the rows strictly
below it (pandas `header=header_row`), and apply the post-filter, in
original file order. -/
def readNaverExcel (grid : List (List String)) :
    Except EngineError (List (List String)) :=
  match findHeaderRow grid with
  | Except.error e => Except.error e
  | Except.ok headerRow => Except.ok ((grid.drop (headerRow + 1)).filter keepRow)

/-- Column count of the DataFrame pandas reads from a sheet: the width
of the widest used row (`pd.read_excel` pads every shorter row with
`NaN` up to this width, and `fillna("")` turns those cells into empty
strings — which is why positional cell access below the frame width is
`row.getD i ""` in this model, while access at or beyond it raises
`IndexError`). -/
def gridWidth (grid : List (List String)) : Nat :=
  grid.foldr (fun row w => max row.length w) 0

/-! ### build_cj_upload_df -/

/-- Python's `str.isdigit()` restricted to the ASCII digits the order
files contain: non-empty and all characters `0`–`9`.  (For such strings
the subsequent `int(q)` always succeeds, so the `except` fallback of the
source is unreachable in this model.) -/
def pyIsDigit (s : String) : Bool :=
  !s.data.isEmpty && s.data.all Char.isDigit

/-- Python `int(q)` for a digit string (its decimal value). -/
def pyInt (s : String) : Nat :=
  s.data.foldl (fun n c => n * 10 + (c.toNat - 48)) 0

/-- One cleaned row of the intermediate DataFrame built at the start of
`build_cj_upload_df` (columns 고객주문번호, 수취인명, 연락처, 우편번호,
주소, 상품명, 수량, 배송메시지) — and also the shape of the produced
CJ-upload rows. -/
structure CjRow where
  orderNo : String
  name : String
  phone : String
  postal : String
  addr : String
  product : String
  qty : String
  note : String
deriving DecidableEq, Repr, Inhabited

/-- The per-row extraction and cleaning of `build_cj_upload_df`
(positional access through the `NAVER` indices; missing cells of a
ragged row read as the empty string, as pandas fills absent cells). -/
def cleanOrderRow (row : List String) : CjRow :=
  { orderNo := pyStrip (row.getD (NAVER "상품주문번호") "")
    name := cleanText (row.getD (NAVER "수취인명") "")
    phone := cleanPhone (row.getD (NAVER "수취인연락처1") "")
    postal := pyStrip (row.getD (NAVER "우편번호") "")
    addr := truncateAddress (cleanText (row.getD (NAVER "합배송지") "")) ADDRESS_MAX_LEN
    product := pyStrip (row.getD (NAVER "상품명") "")
    qty := pyStrip (row.getD (NAVER "수량") "")
    note := cleanText (row.getD (NAVER "배송메세지") "") }

/-- The filter `df = df[df["고객주문번호"] != ""]`: clean every row, then drop the
rows whose trimmed order-id is empty, keeping the original order. -/
def cleanedOrders (rows : List (List String)) : List CjRow :=
  (rows.map cleanOrderRow).filter (fun r => r.orderNo != "")

/-- The grouping key of the 합배송 (bundling) step:
`(수취인명, 연락처, 주소)` after cleaning. -/
def groupTriple (r : CjRow) : String × String × String :=
  (r.name, r.phone, r.addr)

/-- Pandas `df.groupby(keys, sort=False)`: partition a list by a key, groups in
first-seen order, members of each group in original order.  This is the
standard recursive presentation of pandas' order-preserving groupby:
the first group collects every row with the first row's key, and the
remaining rows are grouped recursively.  The `Nat` fuel only makes the
recursion structural (so that the kernel can evaluate it); it is set to
the list length by `groupByFS` below, which always suffices. -/
def groupByFSAux {α κ : Type} [DecidableEq κ] (key : α → κ) :
    Nat → List α → List (κ × List α)
  | _, [] => []
  | 0, _ :: _ => []
  | fuel + 1, x :: xs =>
    (key x, x :: xs.filter (fun y => key y = key x)) ::
      groupByFSAux key fuel (xs.filter (fun y => ¬ key y = key x))

/-- The wrapper `groupByFS key l` (see `groupByFSAux`): the fuel `l.length` always
suffices, since each recursive step processes at least one row. -/
def groupByFS {α κ : Type} [DecidableEq κ] (key : α → κ) (l : List α) :
    List (κ × List α) :=
  groupByFSAux key l.length l

/-- The row appended for one group by `build_cj_upload_df`:
representative order-id, product summary `"<first> 외 <n-1>건"`, summed
quantity with fallback, postal code and delivery note of the first
member. -/
def mkUploadRow (g : (String × String × String) × List CjRow) : CjRow :=
  let first := g.2.headD default
  let products := g.2.map (fun r => r.product)
  let productSummary :=
    if products.length = 1 then products.headD ""
    else products.headD "" ++ " 외 " ++ toString (products.length - 1) ++ "건"
  let qtyList := (g.2.map (fun r => r.qty)).filter pyIsDigit
  let totalQty :=
    if qtyList.isEmpty then first.qty
    else toString (qtyList.map pyInt).sum
  { orderNo := first.orderNo
    name := g.1.1
    phone := g.1.2.1
    postal := first.postal
    addr := g.1.2.2
    product := productSummary
    qty := totalQty
    note := first.note }

/-- The shape-validation `ValueError` message of `build_cj_upload_df`
(`required_max_idx = max(NAVER.values()) = 55`). -/
def shapeErrMsg (ncols : Nat) : String :=
  "파일 양식이 잘못되었습니다. '상품주문번호' 컬럼을 찾을 수 없습니다.\n" ++
  "예상 컬럼 수: 56개 이상 / 실제 컬럼 수: " ++ toString ncols ++ "개\n" ++
  "네이버 스마트스토어에서 다운로드한 원본 엑셀 파일인지 확인해 주세요."

/-- Python `build_cj_upload_df(df_smart)` where `ncols = df_smart.shape[1]`:
validate the column count, clean and filter the rows, bundle them by
the `(name, phone, address)` triple, and emit one summary row per
group together with the pre-grouping row count.  (The intermediate
`find_column` probe of the source only swallows its own error —
`except ValueError: pass` — and has no effect on the result.) -/
def buildCjUploadDf (ncols : Nat) (rows : List (List String)) :
    Except EngineError (List CjRow × Nat) :=
  if ncols ≤ 55 then Except.error (.valueError (shapeErrMsg ncols))
  else
    let cleaned := cleanedOrders rows
    Except.ok ((groupByFS groupTriple cleaned).map mkUploadRow, cleaned.length)

/-- Specification helper: the distinct keys of a list in first-seen
order (the order in which pandas `groupby(..., sort=False)` emits its
groups).  Fueled like `groupByFSAux` so the kernel can evaluate it. -/
def dedupFSAux {κ : Type} [DecidableEq κ] : Nat → List κ → List κ
  | _, [] => []
  | 0, _ :: _ => []
  | fuel + 1, k :: ks => k :: dedupFSAux fuel (ks.filter (fun x => ¬ x = k))

/-- See `dedupFSAux`. -/
def dedupFS {κ : Type} [DecidableEq κ] (l : List κ) : List κ :=
  dedupFSAux l.length l

/-- Test helper: a 56-column Smartstore data row with the given values
at the `NAVER` positions (order-id, recipient, phone, postal, address,
product, quantity, note) and empty cells elsewhere. -/
def mkSmartRow (id name phone postal addr prod qty note : String) :
    List String :=
  ((((((((List.replicate 56 "").set (NAVER "상품주문번호") id).set
    (NAVER "수취인명") name).set (NAVER "수취인연락처1") phone).set
    (NAVER "우편번호") postal).set (NAVER "합배송지") addr).set
    (NAVER "상품명") prod).set (NAVER "수량") qty).set (NAVER "배송메세지") note

/-! ### match_and_fill_waybill

Python `dict[str, str]` is modelled as an association list with the
dict's insertion-order semantics: assigning to an existing key updates
it in place, assigning to a fresh key appends it, and `items()` iterates
in that order. -/

/-- Assignment `m[k] = v` on a Python dict. -/
def dictInsert (m : List (String × String)) (k v : String) :
    List (String × String) :=
  if m.any (fun p => p.1 == k) then
    m.map (fun p => if p.1 == k then (p.1, v) else p)
  else m ++ [(k, v)]

/-- Lookup `m.get(k)` on a Python dict (`None` when absent). -/
def dictGet? (m : List (String × String)) (k : String) : Option String :=
  (m.find? (fun p => p.1 == k)).map (fun p => p.2)

/-- Lookup `m.get(k, d)` on a Python dict. -/
def dictGetD (m : List (String × String)) (k d : String) : String :=
  (dictGet? m k).getD d

/-- Python's `a or b` on strings: `a` if non-empty, else `b`. -/
def pyOr (a b : String) : String :=
  if a ≠ "" then a else b

/-- The CJ lookup construction: for each carrier row, take the stripped
order and waybill cells at the resolved column positions and record the
first occurrence of each non-empty key
(`if key and key not in cj_lookup: cj_lookup[key] = val`). -/
def buildCjLookup (orderIdx waybillIdx : Nat) (cjRows : List (List String)) :
    List (String × String) :=
  cjRows.foldl
    (fun m row =>
      let key := pyStrip (row.getD orderIdx "")
      let val := pyStrip (row.getD waybillIdx "")
      if key ≠ "" ∧ dictGet? m key = none then m ++ [(key, val)] else m)
    []

/-- One row of the `clean_keys` DataFrame of `match_and_fill_waybill`:
the stripped order number and the Tab-1-identical cleaned grouping
fields. -/
structure CleanKey where
  orderNo : String
  name : String
  phone : String
  addr : String
deriving DecidableEq, Repr, Inhabited

/-- The `clean_keys` extraction (positional `NAVER` access, identical
cleaning to `build_cj_upload_df`).  The `getD _ ""` reads model pandas'
`fillna("")` padding of a row shorter than the frame, and are faithful
only when every accessed index (0, 13, 48, 50) is below the frame's
column count; `df_smart.iloc[:, i]` on a narrower frame raises
`IndexError` instead, which `resolveWaybillMap` checks before this
function is ever applied. -/
def cleanKeyOfRow (row : List String) : CleanKey :=
  { orderNo := pyStrip (row.getD (NAVER "상품주문번호") "")
    name := cleanText (row.getD (NAVER "수취인명") "")
    phone := cleanPhone (row.getD (NAVER "수취인연락처1") "")
    addr := truncateAddress (cleanText (row.getD (NAVER "합배송지") "")) ADDRESS_MAX_LEN }

/-- The filter `clean_keys = clean_keys[clean_keys["order_no"] != ""]`. -/
def cleanKeys (rows : List (List String)) : List CleanKey :=
  (rows.map cleanKeyOfRow).filter (fun k => k.orderNo != "")

/-- The grouping key `(name, phone, addr)` of `clean_keys`. -/
def tripleOf (k : CleanKey) : String × String × String :=
  (k.name, k.phone, k.addr)

/-- The `rep_of` dict: iterate the bundling groups in first-seen order
and, inside each group, map every member's order number to the group's
first order number (`rep = orders[0]; for o in orders: rep_of[o] = rep`).
The flattened assignment list below performs exactly those nested-loop
assignments in their source order. -/
def buildRepOf (ck : List CleanKey) : List (String × String) :=
  ((groupByFS tripleOf ck).flatMap
      (fun g => g.2.map (fun r => (r.orderNo, (g.2.headD default).orderNo)))).foldl
    (fun m p => dictInsert m p.1 p.2) []

/-- The `order_to_waybill` dict:
`waybill = cj_lookup.get(rep, "") or cj_lookup.get(order_no, "")`,
recorded only when non-empty. -/
def buildOrderToWaybill (cjLookup repOf : List (String × String)) :
    List (String × String) :=
  repOf.foldl
    (fun m p =>
      let waybill := pyOr (dictGetD cjLookup p.2 "") (dictGetD cjLookup p.1 "")
      if waybill ≠ "" then dictInsert m p.1 waybill else m)
    []

/-- The cell write applied to one data row by the openpyxl loop: rows
with an empty (stripped) order cell are skipped; otherwise the 택배사
(column 7) and 송장번호 (column 8) cells are overwritten with either the
resolved waybill or the 미발급 sentinel. -/
def writeRow (o2w : List (String × String)) (row : List String) : List String :=
  let orderNo := pyStrip (row.getD 0 "")
  if orderNo = "" then row
  else
    let waybill := dictGetD o2w orderNo ""
    if waybill ≠ "" then (row.set 7 "CJ대한통운").set 8 waybill
    else (row.set 7 "미발급").set 8 "미발급"

/-- The openpyxl fill loop over the data rows (the rows from
`data_start_row = header_idx + 2` on, 1-indexed, i.e. the rows strictly
below the header row): returns the rewritten rows together with the
`matched` and `unmatched` counters and the `unmatched_list`, exactly as
accumulated row by row. -/
def fillLoop (o2w : List (String × String)) :
    List (List String) → List (List String) × Nat × Nat × List String
  | [] => ([], 0, 0, [])
  | row :: rest =>
    let r := fillLoop o2w rest
    let orderNo := pyStrip (row.getD 0 "")
    if orderNo = "" then (row :: r.1, r.2.1, r.2.2.1, r.2.2.2)
    else
      let waybill := dictGetD o2w orderNo ""
      if waybill ≠ "" then
        (((row.set 7 "CJ대한통운").set 8 waybill) :: r.1,
          r.2.1 + 1, r.2.2.1, r.2.2.2)
      else
        (((row.set 7 "미발급").set 8 "미발급") :: r.1,
          r.2.1, r.2.2.1 + 1, orderNo :: r.2.2.2)

/-- Steps 1–3 of `match_and_fill_waybill`: resolve the carrier columns,
build the CJ lookup, re-read the order file, group it, and produce the
`order_to_waybill` mapping.  The carrier DataFrame is passed as its
column-name list `cjCols` plus cell grid `cjRows`; `row.get(col)` reads
the cell at the first position of `col` in the column list.  Building
the `clean_keys` frame reads `df_smart.iloc[:, 0/13/48/50]`; the match
path has no width guard, so when the order frame's column count is not
above the largest accessed index (`NAVER["합배송지"] = 50`) pandas
raises `IndexError` before any grouping or matching happens. -/
def resolveWaybillMap (smartGrid : List (List String))
    (cjCols : List String) (cjRows : List (List String)) :
    Except EngineError (List (String × String)) :=
  match mapCjColumns cjCols with
  | Except.error e => Except.error e
  | Except.ok cm =>
    let orderIdx := cjCols.findIdx (fun c => c == cm.1)
    let waybillIdx := cjCols.findIdx (fun c => c == cm.2)
    let cjLookup := buildCjLookup orderIdx waybillIdx cjRows
    match readNaverExcel smartGrid with
    | Except.error e => Except.error e
    | Except.ok dfSmart =>
      if NAVER "합배송지" < gridWidth smartGrid then
        Except.ok (buildOrderToWaybill cjLookup (buildRepOf (cleanKeys dfSmart)))
      else Except.error EngineError.indexError

/-- Python `match_and_fill_waybill(smart_file, cj_df)`: build the
order-to-waybill mapping, find the header row again, keep every row up
to and including the header row untouched, and run the fill loop over
the data rows.  Returns the rewritten grid (the saved workbook) with
the matched count, unmatched count, and unmatched order-id list. -/
def matchAndFillWaybill (smartGrid : List (List String))
    (cjCols : List String) (cjRows : List (List String)) :
    Except EngineError (List (List String) × Nat × Nat × List String) :=
  match resolveWaybillMap smartGrid cjCols cjRows with
  | Except.error e => Except.error e
  | Except.ok o2w =>
    match findHeaderRow smartGrid with
    | Except.error e => Except.error e
    | Except.ok headerIdx =>
      let r := fillLoop o2w (smartGrid.drop (headerIdx + 1))
      Except.ok (smartGrid.take (headerIdx + 1) ++ r.1, r.2.1, r.2.2.1, r.2.2.2)

/-!
## Theorems

Helper lemmas first, then one theorem per claim (with its witness or
counterexample).
-/

/-! ### Text-normalizer lemmas -/

theorem head?_dropWhile_eq_some {p : Char → Bool} :
    ∀ {l : List Char} {b : Char}, (l.dropWhile p).head? = some b → p b = false := by
  intro l
  induction l with
  | nil => intro b h; simp [List.dropWhile] at h
  | cons x xs ih =>
    intro b h
    by_cases hp : p x
    · rw [List.dropWhile_cons] at h
      simp [hp] at h
      exact ih h
    · rw [List.dropWhile_cons] at h
      simp [hp] at h
      rw [← h]
      simpa using hp

theorem getLast?_dropWhile_of_ne {p : Char → Bool} :
    ∀ {l : List Char}, l.dropWhile p ≠ [] →
      (l.dropWhile p).getLast? = l.getLast? := by
  intro l
  induction l with
  | nil => intro h; simp [List.dropWhile] at h
  | cons x xs ih =>
    intro h
    by_cases hp : p x
    · rw [List.dropWhile_cons] at h ⊢
      simp only [hp, if_true] at h ⊢
      have hxs : xs ≠ [] := by
        intro he; subst he; simp [List.dropWhile] at h
      rw [ih h]
      cases xs with
      | nil => exact absurd rfl hxs
      | cons y ys => simp [List.getLast?_cons_cons]
    · rw [List.dropWhile_cons]
      simp [hp]

theorem mem_trimBy {p : Char → Bool} {c : Char} {l : List Char}
    (h : c ∈ trimBy p l) : c ∈ l := by
  unfold trimBy at h
  rw [List.mem_reverse] at h
  have h1 := (List.dropWhile_sublist p).subset h
  rw [List.mem_reverse] at h1
  exact (List.dropWhile_sublist p).subset h1

theorem mem_collapseSpaces {c : Char} :
    ∀ {l : List Char}, c ∈ collapseSpaces l → c ∈ l := by
  intro l
  induction l using collapseSpaces.induct with
  | case1 => intro h; simpa [collapseSpaces] using h
  | case2 d => intro h; simpa [collapseSpaces] using h
  | case3 c1 c2 rest hsp ih =>
    intro h
    rw [collapseSpaces, if_pos hsp] at h
    exact List.mem_cons_of_mem _ (ih h)
  | case4 c1 c2 rest hsp ih =>
    intro h
    rw [collapseSpaces, if_neg hsp] at h
    rcases List.mem_cons.mp h with h | h
    · exact h ▸ List.mem_cons_self _ _
    · exact List.mem_cons_of_mem _ (ih h)

theorem head?_collapseSpaces :
    ∀ (l : List Char), (collapseSpaces l).head? = l.head? := by
  intro l
  induction l using collapseSpaces.induct with
  | case1 => rfl
  | case2 d => rfl
  | case3 c1 c2 rest hsp ih =>
    rw [collapseSpaces, if_pos hsp, ih]
    simp [hsp.1, hsp.2]
  | case4 c1 c2 rest hsp ih =>
    rw [collapseSpaces, if_neg hsp]
    rfl

theorem chain'_collapseSpaces :
    ∀ (l : List Char),
      (collapseSpaces l).Chain' (fun a b => ¬(a = ' ' ∧ b = ' ')) := by
  intro l
  induction l using collapseSpaces.induct with
  | case1 => simp [collapseSpaces]
  | case2 d => simp [collapseSpaces]
  | case3 c1 c2 rest hsp ih =>
    rw [collapseSpaces, if_pos hsp]
    exact ih
  | case4 c1 c2 rest hsp ih =>
    rw [collapseSpaces, if_neg hsp]
    rw [List.chain'_cons']
    refine ⟨?_, ih⟩
    intro y hy
    rw [head?_collapseSpaces (c2 :: rest)] at hy
    simp only [List.head?_cons, Option.mem_def, Option.some.injEq] at hy
    subst hy
    exact hsp

theorem chain'_dropWhile {R : Char → Char → Prop} (p : Char → Bool) :
    ∀ {l : List Char}, l.Chain' R → (l.dropWhile p).Chain' R := by
  intro l
  induction l with
  | nil => intro h; simpa [List.dropWhile] using h
  | cons x xs ih =>
    intro h
    rw [List.dropWhile_cons]
    by_cases hp : p x
    · simp only [hp, if_true]
      exact ih h.tail
    · simpa [hp] using h

theorem chain'_trimBy (p : Char → Bool) {l : List Char}
    (h : l.Chain' (fun a b => ¬(a = ' ' ∧ b = ' '))) :
    (trimBy p l).Chain' (fun a b => ¬(a = ' ' ∧ b = ' ')) := by
  unfold trimBy
  have h1 : (l.dropWhile p).Chain' (fun a b => ¬(a = ' ' ∧ b = ' ')) :=
    chain'_dropWhile p h
  have h2 : ((l.dropWhile p).reverse).Chain' (fun a b => ¬(a = ' ' ∧ b = ' ')) := by
    rw [List.chain'_reverse]
    exact h1.imp (fun a b hab h => hab ⟨h.2, h.1⟩)
  have h3 := chain'_dropWhile p h2
  rw [List.chain'_reverse]
  exact h3.imp (fun a b hab h => hab ⟨h.2, h.1⟩)

theorem trimBy_head? {p : Char → Bool} {l : List Char} {b : Char}
    (h : (trimBy p l).head? = some b) : p b = false := by
  unfold trimBy at h
  rw [List.head?_reverse] at h
  by_cases hu : (l.dropWhile p).reverse.dropWhile p = []
  · rw [hu] at h; simp at h
  · rw [getLast?_dropWhile_of_ne hu, List.getLast?_reverse] at h
    exact head?_dropWhile_eq_some h

theorem trimBy_getLast? {p : Char → Bool} {l : List Char} {b : Char}
    (h : (trimBy p l).getLast? = some b) : p b = false := by
  unfold trimBy at h
  rw [List.getLast?_reverse] at h
  exact head?_dropWhile_eq_some h

/-! ### C8 — clean_phone -/

/-- C8: for every string `s`, `clean_phone s` consists only of ASCII
digits, is the in-order subsequence of the digits of `s` (so it is empty
whenever `s` has no digit), the function is total by construction, and
`clean_phone "+82-10-1234-5678" = "821012345678"` — the country-code
digits are preserved. -/
theorem clean_phone_spec (s : String) :
    (∀ c ∈ (cleanPhone s).data, c.isDigit = true) ∧
    (cleanPhone s).data.Sublist s.data ∧
    ((∀ c ∈ s.data, c.isDigit = false) → cleanPhone s = "") ∧
    cleanPhone "+82-10-1234-5678" = "821012345678" := by
  refine ⟨?_, ?_, ?_, by decide⟩
  · intro c hc
    exact (List.mem_filter.mp hc).2
  · exact List.filter_sublist _
  · intro h
    have he : s.data.filter Char.isDigit = [] := by
      rw [List.filter_eq_nil_iff]
      intro c hc
      simp [h c hc]
    show String.mk (s.data.filter Char.isDigit) = ""
    rw [he]

/-- Witness for C8 at concrete inputs. -/
theorem clean_phone_spec_witness :
    cleanPhone "abc- ()" = "" ∧ cleanPhone "+82-10-1234-5678" = "821012345678" :=
  ⟨(clean_phone_spec "abc- ()").2.2.1 (by decide),
   (clean_phone_spec "+82-10-1234-5678").2.2.2⟩

/-! ### C9 — clean_text -/

/-- C9: `clean_text` deletes the emoji/zero-width/variation-selector
range characters without inserting a replacement, replaces ASCII control
characters by a space, collapses space runs and strips the ends: the
output never contains an emoji-range or control character, never
contains two adjacent spaces, and never starts or ends with whitespace;
`clean_text "홍길동😊서울시" = "홍길동서울시"` (no injected space),
while pre-existing whitespace around a removed emoji collapses to a
single space, and a control character becomes a space. -/
theorem clean_text_spec (s : String) :
    (∀ c ∈ (cleanText s).data, isEmojiLike c = false ∧ isAsciiControl c = false) ∧
    List.Chain' (fun a b => ¬(a = ' ' ∧ b = ' ')) (cleanText s).data ∧
    (∀ c, (cleanText s).data.head? = some c → isPyWhitespace c = false) ∧
    (∀ c, (cleanText s).data.getLast? = some c → isPyWhitespace c = false) ∧
    cleanText "홍길동😊서울시" = "홍길동서울시" ∧
    cleanText "홍길동 😊 서울시" = "홍길동 서울시" ∧
    cleanText "A\nB" = "A B" := by
  refine ⟨?_, ?_, ?_, ?_, by decide, by decide, by decide⟩
  · intro c hc
    have h1 : c ∈ collapseSpaces
        ((s.data.filter (fun c => !isEmojiLike c)).map
          (fun c => if isAsciiControl c then ' ' else c)) := mem_trimBy hc
    have h2 := mem_collapseSpaces h1
    rcases List.mem_map.mp h2 with ⟨b, hb, rfl⟩
    have hbe : isEmojiLike b = false := by
      have := (List.mem_filter.mp hb).2
      simpa using this
    by_cases hbc : isAsciiControl b
    · rw [if_pos hbc]
      exact ⟨by decide, by decide⟩
    · rw [if_neg hbc]
      exact ⟨hbe, by simpa using hbc⟩
  · exact chain'_trimBy _ (chain'_collapseSpaces _)
  · intro c hc
    exact trimBy_head? hc
  · intro c hc
    exact trimBy_getLast? hc

/-- Witness for C9 at concrete inputs. -/
theorem clean_text_spec_witness :
    (isEmojiLike 'a' = false ∧ isAsciiControl 'a' = false) ∧
    isPyWhitespace 'a' = false ∧
    cleanText "홍길동 😊 서울시" = "홍길동 서울시" :=
  ⟨(clean_text_spec "a").1 'a' (by decide),
   (clean_text_spec "a").2.2.1 'a' (by decide),
   (clean_text_spec "").2.2.2.2.2.1⟩

/-! ### Header-locator lemmas -/

theorem findIdx?_eq_some_of_first {α : Type} (p : α → Bool) (d : α) :
    ∀ (l : List α) (k : Nat), k < l.length → p (l.getD k d) = true →
      (∀ j, j < k → p (l.getD j d) = false) →
      l.findIdx? p = some k := by
  intro l
  induction l with
  | nil => intro k hk; simp at hk
  | cons a t ih =>
    intro k hk hp hb
    cases k with
    | zero =>
      rw [List.findIdx?_cons]
      simp only [List.getD_cons_zero] at hp
      simp [hp]
    | succ k =>
      have ha : p a = false := by
        have := hb 0 (Nat.succ_pos k)
        simpa using this
      rw [List.findIdx?_cons, ha]
      simp only [Bool.false_eq_true, if_false]
      rw [List.findIdx?_succ]
      have ht : t.findIdx? p = some k := by
        refine ih k (by simpa using hk) (by simpa using hp) ?_
        intro j hj
        have := hb (j + 1) (Nat.succ_lt_succ hj)
        simpa using this
      rw [ht]
      rfl

/-! ### C3 — find_header_row finds the first exact sentinel row -/

/-- C3: if row `k` of the grid has a cell whose stripped text is exactly
the sentinel `상품주문번호` and no earlier row has such a cell (rows that
merely mention the sentinel inside a longer sentence have no
trimmed-equal cell, so they impose nothing), then `find_header_row`
returns exactly `k`. -/
theorem find_header_row_first (grid : List (List String)) (k : Nat)
    (hk : k < grid.length)
    (hhit : hitRow (grid.getD k []) = true)
    (habove : ∀ j, j < k → hitRow (grid.getD j []) = false) :
    findHeaderRow grid = Except.ok k := by
  unfold findHeaderRow
  rw [findIdx?_eq_some_of_first hitRow [] grid k hk hhit habove]

/-- Witness for C3: the sentinel appears inside longer banner sentences
in rows 0 and 1 (no trimmed-equal cell there) and exactly (with
surrounding whitespace) in row 2; the result is 2. -/
theorem find_header_row_first_witness :
    findHeaderRow
      [["스마트스토어 상품주문번호 안내문입니다"],
       ["상품주문번호를 확인하세요", "x"],
       ["  상품주문번호  ", "배송지"],
       ["O1", "서울"]] = Except.ok 2 :=
  find_header_row_first
    [["스마트스토어 상품주문번호 안내문입니다"],
     ["상품주문번호를 확인하세요", "x"],
     ["  상품주문번호  ", "배송지"],
     ["O1", "서울"]] 2 (by decide) (by decide) (by decide)

/-! ### C4 — find_header_row error on sentinel-free grids -/

/-- C4: when no row of the grid has a cell trimming exactly to the
sentinel, `find_header_row` fails with the engine's `ValueError`-carried
format error (a distinct, user-facing error value, not a crash), whose
message advises that the file is likely not an original Smartstore
export (`네이버 스마트스토어에서 다운로드한 원본 엑셀 파일인지 확인해
주세요`). -/
theorem find_header_row_not_found (grid : List (List String))
    (h : ∀ row ∈ grid, hitRow row = false) :
    findHeaderRow grid = Except.error (.valueError headerNotFoundMsg) ∧
    pyIn "'상품주문번호' 컬럼을 찾을 수 없습니다" headerNotFoundMsg = true ∧
    pyIn "네이버 스마트스토어에서 다운로드한 원본 엑셀 파일인지 확인해 주세요"
      headerNotFoundMsg = true := by
  refine ⟨?_, by decide, by decide⟩
  unfold findHeaderRow
  rw [List.findIdx?_eq_none_iff.mpr h]

/-- Witness for C4: a grid whose rows only mention the sentinel inside
longer text. -/
theorem find_header_row_not_found_witness :
    findHeaderRow [["주문 목록"], ["상품주문번호 확인 안내", "기타"]] =
      Except.error (.valueError headerNotFoundMsg) :=
  (find_header_row_not_found [["주문 목록"], ["상품주문번호 확인 안내", "기타"]]
    (by decide)).1

/-! ### C7 — read_naver_excel -/

/-- C7: when the header row is located at index `headerRow`,
`read_naver_excel` returns exactly the rows strictly below it whose
column-0 cell strips to neither the empty string nor the sentinel text,
in original file order (the result is a sublist of the data rows, and a
data row survives exactly when it passes that filter). -/
theorem read_naver_excel_spec (grid : List (List String)) (headerRow : Nat)
    (hh : findHeaderRow grid = Except.ok headerRow) :
    readNaverExcel grid =
      Except.ok ((grid.drop (headerRow + 1)).filter keepRow) ∧
    ((grid.drop (headerRow + 1)).filter keepRow).Sublist
      (grid.drop (headerRow + 1)) ∧
    (∀ row ∈ (grid.drop (headerRow + 1)).filter keepRow,
      pyStrip (row.headD "") ≠ "" ∧ pyStrip (row.headD "") ≠ SENTINEL) ∧
    (∀ row ∈ grid.drop (headerRow + 1), keepRow row = true →
      row ∈ (grid.drop (headerRow + 1)).filter keepRow) := by
  refine ⟨?_, List.filter_sublist _, ?_, ?_⟩
  · unfold readNaverExcel
    rw [hh]
  · intro row hrow
    have hk := (List.mem_filter.mp hrow).2
    unfold keepRow at hk
    rcases Bool.and_eq_true_iff.mp hk with ⟨h1, h2⟩
    exact ⟨by simpa using h1, by simpa using h2⟩
  · intro row hrow hkeep
    exact List.mem_filter.mpr ⟨hrow, hkeep⟩

/-- Witness for C7: header at row 1; an empty-order row and a residual
duplicated header row below it are dropped, the rest survive in order. -/
theorem read_naver_excel_spec_witness :
    readNaverExcel
      [["안내: 상품주문번호 관련 문구"],
       ["상품주문번호", "수취인"],
       ["O1", "홍길동"],
       ["", "합계"],
       ["상품주문번호", "수취인"],
       ["O2", "김철수"]] =
      Except.ok [["O1", "홍길동"], ["O2", "김철수"]] :=
  (read_naver_excel_spec
    [["안내: 상품주문번호 관련 문구"],
     ["상품주문번호", "수취인"],
     ["O1", "홍길동"],
     ["", "합계"],
     ["상품주문번호", "수취인"],
     ["O2", "김철수"]] 1 rfl).1

/-! ### Column-resolver lemmas -/

theorem find?_first_iff {α : Type} (p : α → Bool) (d : α) :
    ∀ (l : List α) (c : α),
      l.find? p = some c ↔
        ∃ j, j < l.length ∧ l.getD j d = c ∧ p c = true ∧
          ∀ j', j' < j → p (l.getD j' d) = false := by
  intro l
  induction l with
  | nil =>
    intro c
    constructor
    · intro h; simp [List.find?] at h
    · rintro ⟨j, hj, _⟩; simp at hj
  | cons a t ih =>
    intro c
    by_cases hpa : p a = true
    · rw [List.find?_cons_of_pos t hpa]
      constructor
      · intro h
        injection h with h
        subst h
        exact ⟨0, Nat.succ_pos _, rfl, hpa, fun j' hj' => absurd hj' (Nat.not_lt_zero _)⟩
      · rintro ⟨j, hj, hgd, hpc, hfirst⟩
        cases j with
        | zero =>
          simp only [List.getD_cons_zero] at hgd
          rw [hgd]
        | succ j =>
          have h0 := hfirst 0 (Nat.succ_pos _)
          simp only [List.getD_cons_zero] at h0
          rw [hpa] at h0
          cases h0
    · have hpa' : p a = false := by simpa using hpa
      rw [List.find?_cons_of_neg t (by simp [hpa'])]
      rw [ih c]
      constructor
      · rintro ⟨j, hj, hgd, hpc, hfirst⟩
        refine ⟨j + 1, Nat.succ_lt_succ hj, by simpa using hgd, hpc, ?_⟩
        intro j' hj'
        cases j' with
        | zero => simpa using hpa'
        | succ s =>
          have := hfirst s (Nat.lt_of_succ_lt_succ hj')
          simpa using this
      · rintro ⟨j, hj, hgd, hpc, hfirst⟩
        cases j with
        | zero =>
          simp only [List.getD_cons_zero] at hgd
          rw [← hgd] at hpc
          rw [hpa'] at hpc
          cases hpc
        | succ j =>
          refine ⟨j, Nat.lt_of_succ_lt_succ hj, by simpa using hgd, hpc, ?_⟩
          intro j' hj'
          have := hfirst (j' + 1) (Nat.succ_lt_succ hj')
          simpa using this

theorem findFirstBy_eq_none_iff (cols : List String) (p : String → String → Bool) :
    ∀ (kws : List String), findFirstBy cols p kws = none ↔ NoHit p cols kws := by
  intro kws
  induction kws with
  | nil =>
    simp [findFirstBy, NoHit]
  | cons kw rest ih =>
    rw [findFirstBy]
    cases hf : cols.find? (fun col => p col kw) with
    | some col =>
      simp only [reduceCtorEq, false_iff]
      intro hno
      have hp := List.find?_some hf
      have hmem := List.mem_of_find?_eq_some hf
      have := hno kw (List.mem_cons_self _ _) col hmem
      rw [hp] at this
      cases this
    | none =>
      rw [ih]
      have hnone := List.find?_eq_none.mp hf
      constructor
      · intro h kw' hkw' col hcol
        rcases List.mem_cons.mp hkw' with rfl | hkw'
        · simpa using hnone col hcol
        · exact h kw' hkw' col hcol
      · intro h kw' hkw' col hcol
        exact h kw' (List.mem_cons_of_mem _ hkw') col hcol

theorem findFirstBy_eq_some_iff (cols : List String) (p : String → String → Bool) :
    ∀ (kws : List String) (c : String),
      findFirstBy cols p kws = some c ↔ IsFirstHit p cols kws c := by
  intro kws
  induction kws with
  | nil =>
    intro c
    constructor
    · intro h; simp [findFirstBy] at h
    · rintro ⟨i, hi, _⟩; simp at hi
  | cons kw rest ih =>
    intro c
    rw [findFirstBy]
    cases hf : cols.find? (fun col => p col kw) with
    | some col =>
      have hcol := (find?_first_iff (fun col => p col kw) "" cols col).mp hf
      rcases hcol with ⟨j0, hj0, hgd0, hp0, hfirst0⟩
      constructor
      · intro h
        injection h with h
        subst h
        exact ⟨0, Nat.succ_pos _,
          fun i' hi' _ _ => absurd hi' (Nat.not_lt_zero _),
          j0, hj0, hgd0, by simpa using hp0, fun j' hj' => by simpa using hfirst0 j' hj'⟩
      · rintro ⟨i, hi, hearlier, j, hj, hgd, hpc, hfirst⟩
        cases i with
        | zero =>
          simp only [List.getD_cons_zero] at hpc hfirst
          -- both j and j0 are the first column matching kw, so they agree
          rcases Nat.lt_trichotomy j j0 with hlt | heq | hgt
          · have := hfirst0 j hlt
            rw [hgd] at this
            rw [hpc] at this
            cases this
          · subst heq
            rw [hgd] at hgd0
            rw [hgd0]
          · have := hfirst j0 hgt
            rw [hgd0] at this
            rw [hp0] at this
            cases this
        | succ i =>
          have hall := hearlier 0 (Nat.succ_pos _)
          simp only [List.getD_cons_zero] at hall
          have hcolmem : col ∈ cols := List.mem_of_find?_eq_some hf
          have := hall col hcolmem
          rw [hp0] at this
          cases this
    | none =>
      have hnone := List.find?_eq_none.mp hf
      rw [ih c]
      constructor
      · rintro ⟨i, hi, hearlier, j, hj, hgd, hpc, hfirst⟩
        refine ⟨i + 1, Nat.succ_lt_succ hi, ?_, j, hj, hgd, by simpa using hpc, ?_⟩
        · intro i' hi' col hcol
          cases i' with
          | zero => simpa using hnone col hcol
          | succ s =>
            have := hearlier s (Nat.lt_of_succ_lt_succ hi') col hcol
            simpa using this
        · intro j' hj'
          simpa using hfirst j' hj'
      · rintro ⟨i, hi, hearlier, j, hj, hgd, hpc, hfirst⟩
        cases i with
        | zero =>
          simp only [List.getD_cons_zero] at hpc
          have hcmem : c ∈ cols := by
            rw [← hgd, List.getD_eq_getElem cols "" hj]
            exact List.getElem_mem hj
          exact absurd hpc (hnone c hcmem)
        | succ i =>
          refine ⟨i, Nat.lt_of_succ_lt_succ hi, ?_, j, hj, hgd, by simpa using hpc, ?_⟩
          · intro i' hi' col hcol
            have := hearlier (i' + 1) (Nat.succ_lt_succ hi') col hcol
            simpa using this
          · intro j' hj'
            simpa using hfirst j' hj'

/-! ### C6 — find_column -/

/-- C6: `find_column` returns `Except.ok c` exactly when `c` is the
first exact (trimmed-equality) hit in keyword-priority order, or — only
when no column exactly equals any keyword — the first case-insensitive
substring hit in keyword-priority order; so a column exactly equal to a
later keyword always beats a column that merely contains an earlier
keyword.  When neither phase matches, it fails with a `ValueError`
whose message names the field, the keyword list tried, and the full
actual column list. -/
theorem find_column_spec (cols keywords : List String) (fieldName : String) :
    (∀ c, findColumn cols keywords fieldName = Except.ok c ↔
      (IsFirstHit exactMatch cols keywords c ∨
        (NoHit exactMatch cols keywords ∧ IsFirstHit fuzzyMatch cols keywords c))) ∧
    (NoHit exactMatch cols keywords → NoHit fuzzyMatch cols keywords →
      findColumn cols keywords fieldName =
        Except.error (.valueError (findColumnErrMsg fieldName keywords cols)) ∧
      ∃ a b c', findColumnErrMsg fieldName keywords cols =
        a ++ fieldName ++ b ++ toString keywords ++ c' ++ toString cols) := by
  constructor
  · intro c
    unfold findColumn
    cases h1 : findFirstBy cols exactMatch keywords with
    | some col =>
      constructor
      · intro h
        injection h with h
        exact Or.inl ((findFirstBy_eq_some_iff cols exactMatch keywords c).mp
          (h ▸ h1))
      · rintro (hex | ⟨hno, _⟩)
        · have := (findFirstBy_eq_some_iff cols exactMatch keywords c).mpr hex
          rw [h1] at this
          injection this with this
          rw [this]
        · have := (findFirstBy_eq_none_iff cols exactMatch keywords).mpr hno
          rw [h1] at this
          cases this
    | none =>
      have hno : NoHit exactMatch cols keywords :=
        (findFirstBy_eq_none_iff cols exactMatch keywords).mp h1
      cases h2 : findFirstBy cols fuzzyMatch keywords with
      | some col =>
        constructor
        · intro h
          injection h with h
          exact Or.inr ⟨hno,
            (findFirstBy_eq_some_iff cols fuzzyMatch keywords c).mp (h ▸ h2)⟩
        · rintro (hex | ⟨_, hfz⟩)
          · have := (findFirstBy_eq_some_iff cols exactMatch keywords c).mpr hex
            rw [h1] at this
            cases this
          · have := (findFirstBy_eq_some_iff cols fuzzyMatch keywords c).mpr hfz
            rw [h2] at this
            injection this with this
            rw [this]
      | none =>
        constructor
        · intro h
          cases h
        · rintro (hex | ⟨_, hfz⟩)
          · have := (findFirstBy_eq_some_iff cols exactMatch keywords c).mpr hex
            rw [h1] at this
            cases this
          · have := (findFirstBy_eq_some_iff cols fuzzyMatch keywords c).mpr hfz
            rw [h2] at this
            cases this
  · intro hno1 hno2
    constructor
    · unfold findColumn
      rw [(findFirstBy_eq_none_iff cols exactMatch keywords).mpr hno1,
        (findFirstBy_eq_none_iff cols fuzzyMatch keywords).mpr hno2]
    · exact ⟨"파일 양식이 잘못되었습니다. '",
        "' 컬럼을 찾을 수 없습니다.\n탐색 키워드: ",
        "\n실제 컬럼 목록: ", rfl⟩

/-- Witness for C6: the first column merely contains the earlier
keyword `order`, the second exactly equals the later keyword `주문번호`;
the exact hit wins.  A purely fuzzy table resolves by containment, and
a table with no hit yields the descriptive error. -/
theorem find_column_spec_witness :
    findColumn ["my order stuff", "주문번호"] ["order", "주문번호"]
      "고객주문번호 (주문 키)" = Except.ok "주문번호" ∧
    findColumn ["비고", " Tracking Number "] ["운송장번호", "tracking number"]
      "운송장번호 (송장 번호)" = Except.ok " Tracking Number " ∧
    findColumn ["가", "나"] ["운송장번호"] "운송장번호 (송장 번호)" =
      Except.error (.valueError
        (findColumnErrMsg "운송장번호 (송장 번호)" ["운송장번호"] ["가", "나"])) :=
  ⟨((find_column_spec ["my order stuff", "주문번호"] ["order", "주문번호"]
      "고객주문번호 (주문 키)").1 "주문번호").mpr
      (Or.inl ⟨1, by decide, by decide, 1, by decide, by decide, by decide,
        by decide⟩),
   ((find_column_spec ["비고", " Tracking Number "] ["운송장번호", "tracking number"]
      "운송장번호 (송장 번호)").1 " Tracking Number ").mpr
      (Or.inr ⟨by decide, ⟨1, by decide, by decide, 1, by decide, by decide,
        by decide, by decide⟩⟩),
   ((find_column_spec ["가", "나"] ["운송장번호"] "운송장번호 (송장 번호)").2
      (by decide) (by decide)).1⟩

/-! ### Grouping lemmas (pandas `groupby(sort=False)`) -/

theorem groupByFSAux_congr {α κ : Type} [DecidableEq κ] (key : α → κ) :
    ∀ (f1 f2 : Nat) (l : List α), l.length ≤ f1 → l.length ≤ f2 →
      groupByFSAux key f1 l = groupByFSAux key f2 l := by
  intro f1
  induction f1 with
  | zero =>
    intro f2 l h1 h2
    have : l = [] := List.eq_nil_of_length_eq_zero (Nat.le_zero.mp h1)
    subst this
    cases f2 <;> simp [groupByFSAux]
  | succ n ihn =>
    intro f2 l h1 h2
    cases l with
    | nil => cases f2 <;> simp [groupByFSAux]
    | cons x xs =>
      cases f2 with
      | zero => simp at h2
      | succ m =>
        rw [groupByFSAux, groupByFSAux]
        congr 1
        have hxs1 : xs.length ≤ n := Nat.lt_succ_iff.mp (Nat.lt_of_lt_of_le (Nat.lt_succ_self _) h1)
        have hxs2 : xs.length ≤ m := Nat.lt_succ_iff.mp (Nat.lt_of_lt_of_le (Nat.lt_succ_self _) h2)
        have hf := (@List.filter_sublist _ (fun y => decide (¬ key y = key x)) xs).length_le
        exact ihn m _ (le_trans hf hxs1) (le_trans hf hxs2)

theorem groupByFS_cons {α κ : Type} [DecidableEq κ] (key : α → κ) (x : α)
    (xs : List α) :
    groupByFS key (x :: xs) =
      (key x, x :: xs.filter (fun y => key y = key x)) ::
        groupByFS key (xs.filter (fun y => ¬ key y = key x)) := by
  unfold groupByFS
  show groupByFSAux key (xs.length + 1) (x :: xs) = _
  rw [groupByFSAux]
  congr 1
  have hf := (@List.filter_sublist _ (fun y => decide (¬ key y = key x)) xs).length_le
  exact groupByFSAux_congr key xs.length _ _ hf (le_refl _)

theorem dedupFSAux_congr {κ : Type} [DecidableEq κ] :
    ∀ (f1 f2 : Nat) (l : List κ), l.length ≤ f1 → l.length ≤ f2 →
      dedupFSAux f1 l = dedupFSAux f2 l := by
  intro f1
  induction f1 with
  | zero =>
    intro f2 l h1 h2
    have : l = [] := List.eq_nil_of_length_eq_zero (Nat.le_zero.mp h1)
    subst this
    cases f2 <;> simp [dedupFSAux]
  | succ n ihn =>
    intro f2 l h1 h2
    cases l with
    | nil => cases f2 <;> simp [dedupFSAux]
    | cons x xs =>
      cases f2 with
      | zero => simp at h2
      | succ m =>
        rw [dedupFSAux, dedupFSAux]
        congr 1
        have hxs1 : xs.length ≤ n := Nat.lt_succ_iff.mp (Nat.lt_of_lt_of_le (Nat.lt_succ_self _) h1)
        have hxs2 : xs.length ≤ m := Nat.lt_succ_iff.mp (Nat.lt_of_lt_of_le (Nat.lt_succ_self _) h2)
        have hf := (@List.filter_sublist _ (fun y => decide (¬ y = x)) xs).length_le
        exact ihn m _ (le_trans hf hxs1) (le_trans hf hxs2)

theorem dedupFS_cons {κ : Type} [DecidableEq κ] (x : κ) (xs : List κ) :
    dedupFS (x :: xs) = x :: dedupFS (xs.filter (fun y => ¬ y = x)) := by
  unfold dedupFS
  show dedupFSAux (xs.length + 1) (x :: xs) = _
  rw [dedupFSAux]
  congr 1
  have hf := (@List.filter_sublist _ (fun y => decide (¬ y = x)) xs).length_le
  exact dedupFSAux_congr xs.length _ _ hf (le_refl _)

theorem mem_dedupFS {κ : Type} [DecidableEq κ] {k : κ} :
    ∀ (l : List κ), k ∈ dedupFS l → k ∈ l := by
  have main : ∀ (n : Nat) (l : List κ), l.length ≤ n → k ∈ dedupFS l → k ∈ l := by
    intro n
    induction n with
    | zero =>
      intro l hl hk
      have : l = [] := List.eq_nil_of_length_eq_zero (Nat.le_zero.mp hl)
      subst this
      simpa [dedupFS, dedupFSAux] using hk
    | succ n ihn =>
      intro l hl hk
      cases l with
      | nil => simpa [dedupFS, dedupFSAux] using hk
      | cons x xs =>
        rw [dedupFS_cons] at hk
        rcases List.mem_cons.mp hk with rfl | hk
        · exact List.mem_cons_self _ _
        · have hlen : (xs.filter (fun y => ¬ y = x)).length ≤ n :=
            le_trans (List.filter_sublist xs).length_le
              (Nat.lt_succ_iff.mp (Nat.lt_of_lt_of_le (Nat.lt_succ_self _) hl))
          exact List.mem_cons_of_mem _
            ((List.filter_sublist xs).subset (ihn _ hlen hk))
  intro l
  exact main l.length l (le_refl _)

theorem dedupFS_nodup {κ : Type} [DecidableEq κ] :
    ∀ (l : List κ), (dedupFS l).Nodup := by
  have main : ∀ (n : Nat) (l : List κ), l.length ≤ n → (dedupFS l).Nodup := by
    intro n
    induction n with
    | zero =>
      intro l hl
      have : l = [] := List.eq_nil_of_length_eq_zero (Nat.le_zero.mp hl)
      subst this
      simp [dedupFS, dedupFSAux]
    | succ n ihn =>
      intro l hl
      cases l with
      | nil => simp [dedupFS, dedupFSAux]
      | cons x xs =>
        rw [dedupFS_cons]
        have hlen : (xs.filter (fun y => ¬ y = x)).length ≤ n :=
          le_trans (List.filter_sublist xs).length_le
            (Nat.lt_succ_iff.mp (Nat.lt_of_lt_of_le (Nat.lt_succ_self _) hl))
        refine List.nodup_cons.mpr ⟨?_, ihn _ hlen⟩
        intro hx
        have := List.mem_filter.mp (mem_dedupFS _ hx)
        simp at this
  intro l
  exact main l.length l (le_refl _)

theorem map_filter_key {α κ : Type} (key : α → κ) (q : κ → Bool) :
    ∀ (l : List α), (l.filter (fun y => q (key y))).map key = (l.map key).filter q := by
  intro l
  induction l with
  | nil => rfl
  | cons a t ih =>
    by_cases hq : q (key a) = true
    · simp [List.filter_cons, hq, ih]
    · have hq' : q (key a) = false := by simpa using hq
      simp [List.filter_cons, hq', ih]

theorem groupByFS_key_mem {α κ : Type} [DecidableEq κ] (key : α → κ) :
    ∀ (l : List α), ∀ g ∈ groupByFS key l, ∃ y ∈ l, key y = g.1 := by
  have main : ∀ (n : Nat) (l : List α), l.length ≤ n →
      ∀ g ∈ groupByFS key l, ∃ y ∈ l, key y = g.1 := by
    intro n
    induction n with
    | zero =>
      intro l hl g hg
      have : l = [] := List.eq_nil_of_length_eq_zero (Nat.le_zero.mp hl)
      subst this
      simp [groupByFS, groupByFSAux] at hg
    | succ n ihn =>
      intro l hl g hg
      cases l with
      | nil => simp [groupByFS, groupByFSAux] at hg
      | cons x xs =>
        rw [groupByFS_cons] at hg
        rcases List.mem_cons.mp hg with rfl | hg
        · exact ⟨x, List.mem_cons_self _ _, rfl⟩
        · have hlen : (xs.filter (fun y => ¬ key y = key x)).length ≤ n :=
            le_trans (List.filter_sublist xs).length_le
              (Nat.lt_succ_iff.mp (Nat.lt_of_lt_of_le (Nat.lt_succ_self _) hl))
          rcases ihn _ hlen g hg with ⟨y, hy, hky⟩
          exact ⟨y, List.mem_cons_of_mem _ ((List.filter_sublist xs).subset hy), hky⟩
  intro l
  exact main l.length l (le_refl _)

theorem groupByFS_members {α κ : Type} [DecidableEq κ] (key : α → κ) :
    ∀ (l : List α), ∀ g ∈ groupByFS key l,
      g.2 = l.filter (fun y => key y = g.1) := by
  have main : ∀ (n : Nat) (l : List α), l.length ≤ n →
      ∀ g ∈ groupByFS key l, g.2 = l.filter (fun y => key y = g.1) := by
    intro n
    induction n with
    | zero =>
      intro l hl g hg
      have : l = [] := List.eq_nil_of_length_eq_zero (Nat.le_zero.mp hl)
      subst this
      simp [groupByFS, groupByFSAux] at hg
    | succ n ihn =>
      intro l hl g hg
      cases l with
      | nil => simp [groupByFS, groupByFSAux] at hg
      | cons x xs =>
        rw [groupByFS_cons] at hg
        rcases List.mem_cons.mp hg with rfl | hg
        · simp only [List.filter_cons]
          simp
        · have hlen : (xs.filter (fun y => ¬ key y = key x)).length ≤ n :=
            le_trans (List.filter_sublist xs).length_le
              (Nat.lt_succ_iff.mp (Nat.lt_of_lt_of_le (Nat.lt_succ_self _) hl))
          have hne : g.1 ≠ key x := by
            rcases groupByFS_key_mem key _ g hg with ⟨y, hy, hky⟩
            have := (List.mem_filter.mp hy).2
            simp only [decide_eq_true_eq] at this
            rw [← hky]
            exact this
          rw [ihn _ hlen g hg]
          rw [List.filter_filter]
          rw [List.filter_cons]
          have hx : (decide (key x = g.1)) = false := by
            simp only [decide_eq_false_iff_not]
            exact fun hc => hne hc.symm
          rw [hx]
          simp only [Bool.false_eq_true, if_false]
          apply List.filter_congr
          intro y _
          by_cases hy : key y = g.1
          · simp [hy, hne]
          · simp [hy]
  intro l
  exact main l.length l (le_refl _)

theorem groupByFS_keys {α κ : Type} [DecidableEq κ] (key : α → κ) :
    ∀ (l : List α), (groupByFS key l).map Prod.fst = dedupFS (l.map key) := by
  have main : ∀ (n : Nat) (l : List α), l.length ≤ n →
      (groupByFS key l).map Prod.fst = dedupFS (l.map key) := by
    intro n
    induction n with
    | zero =>
      intro l hl
      have : l = [] := List.eq_nil_of_length_eq_zero (Nat.le_zero.mp hl)
      subst this
      simp [groupByFS, groupByFSAux, dedupFS, dedupFSAux]
    | succ n ihn =>
      intro l hl
      cases l with
      | nil => simp [groupByFS, groupByFSAux, dedupFS, dedupFSAux]
      | cons x xs =>
        rw [groupByFS_cons, List.map_cons, List.map_cons, dedupFS_cons]
        congr 1
        have hlen : (xs.filter (fun y => ¬ key y = key x)).length ≤ n :=
          le_trans (List.filter_sublist xs).length_le
            (Nat.lt_succ_iff.mp (Nat.lt_of_lt_of_le (Nat.lt_succ_self _) hl))
        rw [ihn _ hlen]
        congr 1
        exact map_filter_key key (fun k => ¬ k = key x) xs
  intro l
  exact main l.length l (le_refl _)

theorem groupByFS_keys_nodup {α κ : Type} [DecidableEq κ] (key : α → κ)
    (l : List α) : ((groupByFS key l).map Prod.fst).Nodup := by
  rw [groupByFS_keys]
  exact dedupFS_nodup _

theorem groupByFS_covers {α κ : Type} [DecidableEq κ] (key : α → κ) :
    ∀ (l : List α), ∀ r ∈ l,
      ∃ g ∈ groupByFS key l, g.1 = key r ∧ r ∈ g.2 := by
  have main : ∀ (n : Nat) (l : List α), l.length ≤ n →
      ∀ r ∈ l, ∃ g ∈ groupByFS key l, g.1 = key r ∧ r ∈ g.2 := by
    intro n
    induction n with
    | zero =>
      intro l hl r hr
      have : l = [] := List.eq_nil_of_length_eq_zero (Nat.le_zero.mp hl)
      subst this
      simp at hr
    | succ n ihn =>
      intro l hl r hr
      cases l with
      | nil => simp at hr
      | cons x xs =>
        rw [groupByFS_cons]
        by_cases hk : key r = key x
        · refine ⟨(key x, x :: xs.filter (fun y => key y = key x)),
            List.mem_cons_self _ _, hk.symm, ?_⟩
          rcases List.mem_cons.mp hr with rfl | hr
          · exact List.mem_cons_self _ _
          · exact List.mem_cons_of_mem _
              (List.mem_filter.mpr ⟨hr, by simpa using hk⟩)
        · have hrx : r ≠ x := fun hc => hk (hc ▸ rfl)
          have hr' : r ∈ xs := by
            rcases List.mem_cons.mp hr with rfl | hr
            · exact absurd rfl hrx
            · exact hr
          have hlen : (xs.filter (fun y => ¬ key y = key x)).length ≤ n :=
            le_trans (List.filter_sublist xs).length_le
              (Nat.lt_succ_iff.mp (Nat.lt_of_lt_of_le (Nat.lt_succ_self _) hl))
          rcases ihn _ hlen r (List.mem_filter.mpr ⟨hr', by simpa using hk⟩)
            with ⟨g, hg, hg1, hg2⟩
          exact ⟨g, List.mem_cons_of_mem _ hg, hg1, hg2⟩
  intro l
  exact main l.length l (le_refl _)

theorem groupByFS_flat_perm {α κ : Type} [DecidableEq κ] (key : α → κ) :
    ∀ (l : List α), ((groupByFS key l).flatMap Prod.snd).Perm l := by
  have main : ∀ (n : Nat) (l : List α), l.length ≤ n →
      ((groupByFS key l).flatMap Prod.snd).Perm l := by
    intro n
    induction n with
    | zero =>
      intro l hl
      have : l = [] := List.eq_nil_of_length_eq_zero (Nat.le_zero.mp hl)
      subst this
      simp [groupByFS, groupByFSAux]
    | succ n ihn =>
      intro l hl
      cases l with
      | nil => simp [groupByFS, groupByFSAux]
      | cons x xs =>
        rw [groupByFS_cons]
        rw [List.flatMap_cons]
        have hlen : (xs.filter (fun y => ¬ key y = key x)).length ≤ n :=
          le_trans (List.filter_sublist xs).length_le
            (Nat.lt_succ_iff.mp (Nat.lt_of_lt_of_le (Nat.lt_succ_self _) hl))
        have hperm := ihn _ hlen
        refine List.Perm.trans (List.Perm.append_left _ hperm) ?_
        have hcons : (x :: xs.filter (fun y => key y = key x)) ++
            xs.filter (fun y => ¬ key y = key x) =
            x :: (xs.filter (fun y => key y = key x) ++
              xs.filter (fun y => ¬ key y = key x)) := rfl
        rw [hcons]
        apply List.Perm.cons
        have hfe : xs.filter (fun y => ¬ key y = key x) =
            xs.filter (fun y => !(decide (key y = key x))) := by
          apply List.filter_congr
          intro y _
          simp
        rw [hfe]
        exact List.filter_append_perm (fun y => decide (key y = key x)) xs
  intro l
  exact main l.length l (le_refl _)

/-! ### C5 — build_cj_upload_df -/

/-- C5: with enough columns, `build_cj_upload_df` cleans the rows, drops
those with an empty trimmed order-id, partitions the survivors by the
`(name, phone, address)` triple — groups in first-seen order (their keys
are the first-seen deduplication of the row keys, pairwise distinct),
each group holding exactly the rows with its key in original order — and
emits one row per group: representative order-id, postal code and
delivery note from the first member, product summary `"<first> 외 <n-1>건"`
for group size `n > 1` (the sole product name for `n = 1`), and the sum
of the members' digit-string quantities (the first member's raw quantity
string when none is a digit string); the pre-grouping row count is
returned alongside. -/
theorem build_cj_upload_spec (ncols : Nat) (rows : List (List String))
    (h : 55 < ncols) :
    buildCjUploadDf ncols rows =
      Except.ok ((groupByFS groupTriple (cleanedOrders rows)).map mkUploadRow,
        (cleanedOrders rows).length) ∧
    (∀ r ∈ cleanedOrders rows, r.orderNo ≠ "") ∧
    (groupByFS groupTriple (cleanedOrders rows)).map Prod.fst =
      dedupFS ((cleanedOrders rows).map groupTriple) ∧
    ((groupByFS groupTriple (cleanedOrders rows)).map Prod.fst).Nodup ∧
    (∀ g ∈ groupByFS groupTriple (cleanedOrders rows),
      g.2 = (cleanedOrders rows).filter (fun r => groupTriple r = g.1)) ∧
    (∀ r ∈ cleanedOrders rows,
      ∃ g ∈ groupByFS groupTriple (cleanedOrders rows),
        g.1 = groupTriple r ∧ r ∈ g.2) ∧
    (∀ g ∈ groupByFS groupTriple (cleanedOrders rows),
      g.2 ≠ [] ∧
      (mkUploadRow g).orderNo = (g.2.headD default).orderNo ∧
      (mkUploadRow g).postal = (g.2.headD default).postal ∧
      (mkUploadRow g).note = (g.2.headD default).note ∧
      (mkUploadRow g).name = g.1.1 ∧
      (mkUploadRow g).phone = g.1.2.1 ∧
      (mkUploadRow g).addr = g.1.2.2 ∧
      (mkUploadRow g).product =
        (if g.2.length = 1 then (g.2.headD default).product
         else (g.2.headD default).product ++ " 외 " ++
           toString (g.2.length - 1) ++ "건") ∧
      (mkUploadRow g).qty =
        (if ((g.2.map (fun r => r.qty)).filter pyIsDigit).isEmpty
         then (g.2.headD default).qty
         else toString (((g.2.map (fun r => r.qty)).filter pyIsDigit).map
           pyInt).sum)) := by
  refine ⟨?_, ?_, groupByFS_keys groupTriple _, groupByFS_keys_nodup groupTriple _,
    groupByFS_members groupTriple _, groupByFS_covers groupTriple _, ?_⟩
  · unfold buildCjUploadDf
    rw [if_neg (by omega)]
  · intro r hr
    have := (List.mem_filter.mp hr).2
    simpa using this
  · intro g hg
    have hne : g.2 ≠ [] := by
      rcases groupByFS_key_mem groupTriple _ g hg with ⟨y, hy, hky⟩
      rw [groupByFS_members groupTriple _ g hg]
      intro hc
      have := List.filter_eq_nil_iff.mp hc y hy
      simp [hky] at this
    rcases hg2 : g.2 with _ | ⟨f, t⟩
    · exact absurd hg2 hne
    · refine ⟨List.cons_ne_nil f t, ?_, ?_, ?_, ?_, ?_, ?_, ?_, ?_⟩ <;>
        simp [mkUploadRow, hg2]

/-- Witness for C5: three rows with the identical cleaned triple and
order-ids `O1`, `O2`, `O3` bundle into exactly one group represented by
`O1`, with summary `상품A 외 2건` and quantity `1 + 2 + 3 = 6`. -/
theorem build_cj_upload_spec_witness :
    buildCjUploadDf 56
      [mkSmartRow "O1" "홍길동" "010-1111-2222" "12345" "서울시 강남구" "상품A" "1" "부재시 문앞",
       mkSmartRow "O2" "홍길동" "010-1111-2222" "12345" "서울시 강남구" "상품B" "2" "",
       mkSmartRow "O3" "홍길동" "010-1111-2222" "12345" "서울시 강남구" "상품C" "3" ""] =
      Except.ok
        ([CjRow.mk "O1" "홍길동" "01011112222" "12345" "서울시 강남구"
            "상품A 외 2건" "6" "부재시 문앞"], 3) :=
  (build_cj_upload_spec 56
    [mkSmartRow "O1" "홍길동" "010-1111-2222" "12345" "서울시 강남구" "상품A" "1" "부재시 문앞",
     mkSmartRow "O2" "홍길동" "010-1111-2222" "12345" "서울시 강남구" "상품B" "2" "",
     mkSmartRow "O3" "홍길동" "010-1111-2222" "12345" "서울시 강남구" "상품C" "3" ""]
    (by omega)).1

/-! ### Python-dict model lemmas -/

theorem dictGet?_nil (k : String) : dictGet? [] k = none := rfl

theorem dictInsert_of_not_mem {m : List (String × String)} {k : String}
    (v : String) (h : k ∉ m.map Prod.fst) : dictInsert m k v = m ++ [(k, v)] := by
  unfold dictInsert
  rw [if_neg]
  intro hc
  rcases List.any_eq_true.mp hc with ⟨p, hp, hpk⟩
  exact h (List.mem_map.mpr ⟨p, hp, by simpa using hpk⟩)

theorem keys_dictInsert_subset {m : List (String × String)} {k v k' : String}
    (h : k' ∈ (dictInsert m k v).map Prod.fst) :
    k' ∈ m.map Prod.fst ∨ k' = k := by
  unfold dictInsert at h
  by_cases hany : m.any (fun p => p.1 == k)
  · rw [if_pos hany] at h
    rcases List.mem_map.mp h with ⟨q, hq, hqk⟩
    rcases List.mem_map.mp hq with ⟨p, hp, hfp⟩
    by_cases hpk : (p.1 == k) = true
    · right
      rw [← hqk, ← hfp]
      simp only [hpk, if_true]
      simpa using hpk
    · left
      refine List.mem_map.mpr ⟨p, hp, ?_⟩
      rw [← hqk, ← hfp]
      simp [hpk]
  · rw [if_neg hany] at h
    rw [List.map_append] at h
    rcases List.mem_append.mp h with h | h
    · exact Or.inl h
    · right
      simpa using h

theorem foldIns_eq_append :
    ∀ (ps m0 : List (String × String)),
      (∀ x ∈ ps.map Prod.fst, x ∉ m0.map Prod.fst) →
      (ps.map Prod.fst).Nodup →
      ps.foldl (fun m p => dictInsert m p.1 p.2) m0 = m0 ++ ps := by
  intro ps
  induction ps with
  | nil => intro m0 _ _; simp
  | cons p rest ih =>
    intro m0 hdisj hnd
    rw [List.foldl_cons]
    have hp : p.1 ∉ m0.map Prod.fst :=
      hdisj p.1 (List.mem_map.mpr ⟨p, List.mem_cons_self _ _, rfl⟩)
    rw [dictInsert_of_not_mem p.2 hp]
    rw [List.map_cons] at hnd
    have hnd' := List.nodup_cons.mp hnd
    rw [ih (m0 ++ [(p.1, p.2)]) ?_ hnd'.2]
    · simp
    · intro x hx
      rw [List.map_append, List.mem_append]
      rintro (hc | hc)
      · exact hdisj x (List.mem_cons_of_mem _ hx) hc
      · simp only [List.map_cons, List.map_nil, List.mem_singleton] at hc
        rw [hc] at hx
        exact hnd'.1 hx

theorem buildRepOf_keys_nodup (ck : List CleanKey)
    (hnd : (ck.map (fun r => r.orderNo)).Nodup) :
    ((buildRepOf ck).map Prod.fst).Nodup := by
  have hkeysEq : ((groupByFS tripleOf ck).flatMap
        (fun g => g.2.map (fun x => (x.orderNo, (g.2.headD default).orderNo)))).map
        Prod.fst =
      ((groupByFS tripleOf ck).flatMap Prod.snd).map (fun x => x.orderNo) := by
    rw [List.map_flatMap, List.map_flatMap]
    congr 1
    funext g
    rw [List.map_map]
    rfl
  have hkeysPerm : (((groupByFS tripleOf ck).flatMap
        (fun g => g.2.map (fun x => (x.orderNo, (g.2.headD default).orderNo)))).map
        Prod.fst).Perm (ck.map (fun x => x.orderNo)) := by
    rw [hkeysEq]
    exact (groupByFS_flat_perm tripleOf ck).map (fun x => x.orderNo)
  have hndA := hkeysPerm.nodup_iff.mpr hnd
  show ((((groupByFS tripleOf ck).flatMap
      (fun g => g.2.map (fun x => (x.orderNo, (g.2.headD default).orderNo)))).foldl
      (fun m p => dictInsert m p.1 p.2) []).map Prod.fst).Nodup
  rw [foldIns_eq_append _ [] (by simp) hndA, List.nil_append]
  exact hndA

theorem fillLoop_fst (o2w : List (String × String)) :
    ∀ (rows : List (List String)),
      (fillLoop o2w rows).1 =
        rows.map (writeRow o2w) := by
  intro rows
  induction rows with
  | nil => rfl
  | cons row rest ih =>
    by_cases h1 : pyStrip (row[0]?.getD "") = ""
    · simp [fillLoop, writeRow, List.filter_cons, h1, ih]
    · by_cases h2 : dictGetD o2w (pyStrip (row[0]?.getD "")) "" = ""
      · simp [fillLoop, writeRow, List.filter_cons, h1, h2, ih]
      · simp [fillLoop, writeRow, List.filter_cons, h1, h2, ih]

theorem fillLoop_unmatchedList (o2w : List (String × String)) :
    ∀ (rows : List (List String)),
      (fillLoop o2w rows).2.2.2 =
        (rows.filter (fun r => pyStrip (r.getD 0 "") != "" &&
          dictGetD o2w (pyStrip (r.getD 0 "")) "" == "")).map
          (fun r => pyStrip (r.getD 0 "")) := by
  intro rows
  induction rows with
  | nil => rfl
  | cons row rest ih =>
    by_cases h1 : pyStrip (row[0]?.getD "") = ""
    · simp [fillLoop, writeRow, List.filter_cons, h1, ih]
    · by_cases h2 : dictGetD o2w (pyStrip (row[0]?.getD "")) "" = ""
      · simp [fillLoop, writeRow, List.filter_cons, h1, h2, ih]
      · simp [fillLoop, writeRow, List.filter_cons, h1, h2, ih]

theorem fillLoop_unmatchedCount (o2w : List (String × String)) :
    ∀ (rows : List (List String)),
      (fillLoop o2w rows).2.2.1 =
        (rows.filter (fun r => pyStrip (r.getD 0 "") != "" &&
          dictGetD o2w (pyStrip (r.getD 0 "")) "" == "")).length := by
  intro rows
  induction rows with
  | nil => rfl
  | cons row rest ih =>
    by_cases h1 : pyStrip (row[0]?.getD "") = ""
    · simp [fillLoop, writeRow, List.filter_cons, h1, ih]
    · by_cases h2 : dictGetD o2w (pyStrip (row[0]?.getD "")) "" = ""
      · simp [fillLoop, writeRow, List.filter_cons, h1, h2, ih]
      · simp [fillLoop, writeRow, List.filter_cons, h1, h2, ih]

theorem fillLoop_matchedCount (o2w : List (String × String)) :
    ∀ (rows : List (List String)),
      (fillLoop o2w rows).2.1 =
        (rows.filter (fun r => pyStrip (r.getD 0 "") != "" &&
          dictGetD o2w (pyStrip (r.getD 0 "")) "" != "")).length := by
  intro rows
  induction rows with
  | nil => rfl
  | cons row rest ih =>
    by_cases h1 : pyStrip (row[0]?.getD "") = ""
    · simp [fillLoop, writeRow, List.filter_cons, h1, ih]
    · by_cases h2 : dictGetD o2w (pyStrip (row[0]?.getD "")) "" = ""
      · simp [fillLoop, writeRow, List.filter_cons, h1, h2, ih]
      · simp [fillLoop, writeRow, List.filter_cons, h1, h2, ih]

theorem findIdx?_some_lt {α : Type} (p : α → Bool) :
    ∀ (l : List α) (i : Nat), l.findIdx? p = some i → i < l.length := by
  intro l
  induction l with
  | nil => intro i h; rw [List.findIdx?_nil] at h; cases h
  | cons a t ih =>
    intro i h
    rw [List.findIdx?_cons] at h
    by_cases hpa : p a = true
    · rw [if_pos hpa] at h
      injection h with h
      rw [← h]
      exact Nat.succ_pos _
    · rw [if_neg hpa, List.findIdx?_succ] at h
      cases hf : t.findIdx? p with
      | none => rw [hf] at h; cases h
      | some j =>
        rw [hf] at h
        have h2 : j + 1 = i := by
          have h3 : (some (j + 1) : Option Nat) = some i := h
          injection h3
        rw [← h2]
        exact Nat.succ_lt_succ (ih j hf)

theorem findHeaderRow_lt_length {grid : List (List String)} {k : Nat}
    (h : findHeaderRow grid = Except.ok k) : k < grid.length := by
  unfold findHeaderRow at h
  cases hf : grid.findIdx? hitRow with
  | none => rw [hf] at h; cases h
  | some i =>
    rw [hf] at h
    injection h with h
    rw [← h]
    exact findIdx?_some_lt hitRow grid i hf

theorem writeRow_cell_ne (o2w : List (String × String)) (row : List String)
    (c : Nat) (h7 : c ≠ 7) (h8 : c ≠ 8) :
    (writeRow o2w row)[c]? = row[c]? := by
  unfold writeRow
  by_cases h1 : pyStrip (row.getD 0 "") = ""
  · rw [if_pos h1]
  · rw [if_neg h1]
    by_cases h2 : dictGetD o2w (pyStrip (row.getD 0 "")) "" ≠ ""
    · rw [if_pos h2]
      rw [List.getElem?_set_ne (fun hc => h8 hc.symm),
        List.getElem?_set_ne (fun hc => h7 hc.symm)]
    · rw [if_neg h2]
      rw [List.getElem?_set_ne (fun hc => h8 hc.symm),
        List.getElem?_set_ne (fun hc => h7 hc.symm)]

theorem writeRow_of_empty (o2w : List (String × String)) (row : List String)
    (h : pyStrip (row.getD 0 "") = "") : writeRow o2w row = row := by
  unfold writeRow
  rw [if_pos h]

/-- Decomposition of a successful `match_and_fill_waybill` run: the
output grid is the untouched rows up to and including the header
followed by the written data rows, and the counters and unmatched list
are the row-by-row tallies of the fill loop. -/
theorem matchAndFill_ok_decomp (smartGrid : List (List String))
    (cjCols : List String) (cjRows : List (List String)) (headerIdx : Nat)
    (out : List (List String)) (matched unmatched : Nat) (ul : List String)
    (hh : findHeaderRow smartGrid = Except.ok headerIdx)
    (hr : matchAndFillWaybill smartGrid cjCols cjRows =
      Except.ok (out, matched, unmatched, ul)) :
    ∃ o2w, resolveWaybillMap smartGrid cjCols cjRows = Except.ok o2w ∧
      out = smartGrid.take (headerIdx + 1) ++
        (smartGrid.drop (headerIdx + 1)).map (writeRow o2w) ∧
      matched = ((smartGrid.drop (headerIdx + 1)).filter
        (fun r => pyStrip (r.getD 0 "") != "" &&
          dictGetD o2w (pyStrip (r.getD 0 "")) "" != "")).length ∧
      unmatched = ((smartGrid.drop (headerIdx + 1)).filter
        (fun r => pyStrip (r.getD 0 "") != "" &&
          dictGetD o2w (pyStrip (r.getD 0 "")) "" == "")).length ∧
      ul = ((smartGrid.drop (headerIdx + 1)).filter
        (fun r => pyStrip (r.getD 0 "") != "" &&
          dictGetD o2w (pyStrip (r.getD 0 "")) "" == "")).map
        (fun r => pyStrip (r.getD 0 "")) := by
  unfold matchAndFillWaybill at hr
  cases hres : resolveWaybillMap smartGrid cjCols cjRows with
  | error e => rw [hres] at hr; cases hr
  | ok o2w =>
    rw [hres, hh] at hr
    injection hr with hr
    simp only [Prod.mk.injEq] at hr
    obtain ⟨h1, h2, h3, h4⟩ := hr
    refine ⟨o2w, rfl, ?_, ?_, ?_, ?_⟩
    · rw [← h1, fillLoop_fst]
    · rw [← h2, fillLoop_matchedCount]
    · rw [← h3, fillLoop_unmatchedCount]
    · rw [← h4, fillLoop_unmatchedList]

/-! ### C2 — template-preserving frame of match_and_fill_waybill -/

/-- C2: in a successful `match_and_fill_waybill` run, every row at or
above the located header row is returned unchanged, every cell of a
data row other than the carrier-name cell (column 7) and the
tracking-number cell (column 8) keeps its input value, and a data row
whose column-0 cell strips to the empty string is returned entirely
unchanged (the loop `continue`s over it). -/
theorem match_and_fill_frame (smartGrid : List (List String))
    (cjCols : List String) (cjRows : List (List String)) (headerIdx : Nat)
    (out : List (List String)) (matched unmatched : Nat) (ul : List String)
    (hh : findHeaderRow smartGrid = Except.ok headerIdx)
    (hr : matchAndFillWaybill smartGrid cjCols cjRows =
      Except.ok (out, matched, unmatched, ul)) :
    out.length = smartGrid.length ∧
    (∀ i, i ≤ headerIdx → out[i]? = smartGrid[i]?) ∧
    (∀ i c, headerIdx < i → c ≠ 7 → c ≠ 8 →
      (out.getD i [])[c]? = (smartGrid.getD i [])[c]?) ∧
    (∀ i, headerIdx < i → pyStrip ((smartGrid.getD i []).getD 0 "") = "" →
      out[i]? = smartGrid[i]?) := by
  have hlt : headerIdx < smartGrid.length := findHeaderRow_lt_length hh
  rcases matchAndFill_ok_decomp smartGrid cjCols cjRows headerIdx out matched
    unmatched ul hh hr with ⟨o2w, _, hout, _, _, _⟩
  have htlen : (smartGrid.take (headerIdx + 1)).length = headerIdx + 1 := by
    rw [List.length_take]
    omega
  have houtid : ∀ i, headerIdx < i →
      out[i]? = Option.map (writeRow o2w) smartGrid[i]? := by
    intro i hi
    have harith : headerIdx + 1 + (i - (headerIdx + 1)) = i := by omega
    rw [hout, List.getElem?_append, htlen]
    rw [if_neg (show ¬ i < headerIdx + 1 by omega)]
    rw [List.getElem?_map, List.getElem?_drop, harith]
  refine ⟨?_, ?_, ?_, ?_⟩
  · rw [hout, List.length_append, htlen, List.length_map, List.length_drop]
    omega
  · intro i hi
    rw [hout, List.getElem?_append, htlen]
    rw [if_pos (show i < headerIdx + 1 by omega)]
    rw [List.getElem?_take, if_pos (show i < headerIdx + 1 by omega)]
  · intro i c hi h7 h8
    rw [List.getD_eq_getElem?_getD, List.getD_eq_getElem?_getD, houtid i hi]
    cases hg : smartGrid[i]? with
    | none => rfl
    | some row =>
      show (writeRow o2w row)[c]? = row[c]?
      exact writeRow_cell_ne o2w row c h7 h8
  · intro i hi hempty
    rw [houtid i hi]
    cases hg : smartGrid[i]? with
    | none => rfl
    | some row =>
      show some (writeRow o2w row) = some row
      rw [writeRow_of_empty o2w row ?_]
      rw [List.getD_eq_getElem?_getD smartGrid i, hg] at hempty
      exact hempty

/-- Witness for C2 on a concrete workbook (full-width data row): banner
and header rows come back untouched, a non-target cell of the written
data row keeps its value, and the empty-order trailer row is
untouched. -/
theorem match_and_fill_frame_witness :
    ([["공지: 상품주문번호 안내", "b0"],
      ["상품주문번호", "h1", "h2", "h3", "h4", "h5", "h6", "h7", "h8"],
      ((["O1", "v1", "v2", "v3", "v4", "v5", "v6", "v7", "v8"] ++
        List.replicate 47 "").set 7 "CJ대한통운").set 8 "T77",
      ["", "x1"]] : List (List String))[0]? =
      ([["공지: 상품주문번호 안내", "b0"],
        ["상품주문번호", "h1", "h2", "h3", "h4", "h5", "h6", "h7", "h8"],
        ["O1", "v1", "v2", "v3", "v4", "v5", "v6", "v7", "v8"] ++
          List.replicate 47 "",
        ["", "x1"]] : List (List String))[0]? ∧
    (([["공지: 상품주문번호 안내", "b0"],
      ["상품주문번호", "h1", "h2", "h3", "h4", "h5", "h6", "h7", "h8"],
      ((["O1", "v1", "v2", "v3", "v4", "v5", "v6", "v7", "v8"] ++
        List.replicate 47 "").set 7 "CJ대한통운").set 8 "T77",
      ["", "x1"]] : List (List String)).getD 2 [])[3]? =
      (([["공지: 상품주문번호 안내", "b0"],
        ["상품주문번호", "h1", "h2", "h3", "h4", "h5", "h6", "h7", "h8"],
        ["O1", "v1", "v2", "v3", "v4", "v5", "v6", "v7", "v8"] ++
          List.replicate 47 "",
        ["", "x1"]] : List (List String)).getD 2 [])[3]? ∧
    ([["공지: 상품주문번호 안내", "b0"],
      ["상품주문번호", "h1", "h2", "h3", "h4", "h5", "h6", "h7", "h8"],
      ((["O1", "v1", "v2", "v3", "v4", "v5", "v6", "v7", "v8"] ++
        List.replicate 47 "").set 7 "CJ대한통운").set 8 "T77",
      ["", "x1"]] : List (List String))[3]? =
      ([["공지: 상품주문번호 안내", "b0"],
        ["상품주문번호", "h1", "h2", "h3", "h4", "h5", "h6", "h7", "h8"],
        ["O1", "v1", "v2", "v3", "v4", "v5", "v6", "v7", "v8"] ++
          List.replicate 47 "",
        ["", "x1"]] : List (List String))[3]? := by
  have h := match_and_fill_frame
    [["공지: 상품주문번호 안내", "b0"],
     ["상품주문번호", "h1", "h2", "h3", "h4", "h5", "h6", "h7", "h8"],
     ["O1", "v1", "v2", "v3", "v4", "v5", "v6", "v7", "v8"] ++
       List.replicate 47 "",
     ["", "x1"]]
    ["주문번호", "운송장번호"] [["O1", "T77"]] 1
    [["공지: 상품주문번호 안내", "b0"],
     ["상품주문번호", "h1", "h2", "h3", "h4", "h5", "h6", "h7", "h8"],
     ((["O1", "v1", "v2", "v3", "v4", "v5", "v6", "v7", "v8"] ++
       List.replicate 47 "").set 7 "CJ대한통운").set 8 "T77",
     ["", "x1"]] 1 0 [] rfl rfl
  exact ⟨h.2.1 0 (by omega), h.2.2.1 2 3 (by omega) (by omega) (by omega),
    h.2.2.2 3 (by omega) (by decide)⟩

/-! ### Dict-key uniqueness invariants -/

end SummitLogic
